import Mathlib

/-!
Verification development for the chorale-generator repository: a shallow
embedding of the pitch/tonality/bassline/chorale data model, the
voice-leading validity predicate `soprano_valid_at`, and the backtracking
soprano generator, together with theorems about the properties the design
documentation states.

Machine integers do not occur: Python integers are unbounded, so pitches
and intervals are embedded as `Int` (Python `%` on a positive modulus is
`Int.emod`).  The seeded pseudo-random generator (`random.Random`) is an
external collaborator; it is embedded as an abstract deterministic stream
(`PRNG`), which is exactly the property the design relies on.
-/

namespace ChoraleGen

/-- A pitch is its MIDI index.  `pitch.py` restricts construction to
`[0, 127]`; the voice-leading arithmetic never depends on that bound, so
the embedding uses unbounded `Int` (all concrete inputs respect the bound). -/
abbrev Pitch := Int

/-- `Pitch.distance_to`: signed semitone distance from `p` upwards to `q`. -/
def distanceTo (p q : Pitch) : Int := q - p

/-- `Pitch.note_name_equals`: equality of pitch classes, ignoring octave. -/
def noteNameEquals (p q : Pitch) : Bool := p.emod 12 == q.emod 12

/-- `is_stepwise_interval` from `chorale.py`. -/
def isStepwiseInterval (semitones : Int) : Bool :=
  semitones == 1 || semitones == 2 || semitones == -1 || semitones == -2

/-- `is_disjunct_interval` from `chorale.py`. -/
def isDisjunctInterval (semitones : Int) : Bool := 2 < |semitones|

/-- `is_leap_interval` from `chorale.py`. -/
def isLeapInterval (semitones : Int) : Bool := 4 < |semitones|

/-- `is_in_soprano_range` from `chorale.py`: `C4` has MIDI index 60 and
`G5` has MIDI index 79. -/
def isInSopranoRange (p : Pitch) : Bool := 60 ≤ p && p ≤ 79

/-- `Pitch.from_note_name(NOTE_NAMES[pc], octave)` evaluates to
`(octave + 1) * 12 + pc`: the pitch with class `pc` in the given octave. -/
def pitchOfClassOctave (pc octave : Int) : Pitch := (octave + 1) * 12 + pc

/-- `all_soprano_voicings` from `chorale.py`: octave placements 4..6 of the
pitch's note name, kept when inside the soprano range, in loop order. -/
def allSopranoVoicings (p : Pitch) : List Pitch :=
  ([4, 5, 6] : List Int).foldl
    (fun voicings octave =>
      let candidatePitch := pitchOfClassOctave (p.emod 12) octave
      if isInSopranoRange candidatePitch then voicings ++ [candidatePitch] else voicings)
    []

/-- `ChordQuality` from `tonality.py`. -/
inductive ChordQuality where
  | major | minor | diminished | augmented
  | majorSeventh | minorSeventh | dominantSeventh
  | halfDiminishedSeventh | diminishedSeventh
  deriving DecidableEq, Repr

/-- `CHORD_TONE_OFFSETS` from `tonality.py`. -/
def chordToneOffsets : ChordQuality → List Int
  | .major => [0, 4, 7]
  | .minor => [0, 3, 7]
  | .diminished => [0, 3, 6]
  | .augmented => [0, 4, 8]
  | .majorSeventh => [0, 4, 7, 11]
  | .minorSeventh => [0, 3, 7, 10]
  | .dominantSeventh => [0, 4, 7, 10]
  | .halfDiminishedSeventh => [0, 3, 6, 10]
  | .diminishedSeventh => [0, 3, 6, 9]

/-- `ScaleDegree` from `tonality.py`. -/
inductive ScaleDegree where
  | tonic | supertonic | mediant | subdominant | dominant | submediant | leadingTone
  deriving DecidableEq, Repr

/-- `MAJOR_SCALE_INTERVALS` from `tonality.py`. -/
def majorScaleIntervals : ScaleDegree → Int
  | .tonic => 0
  | .supertonic => 2
  | .mediant => 4
  | .subdominant => 5
  | .dominant => 7
  | .submediant => 9
  | .leadingTone => 11

/-- `MINOR_SCALE_INTERVALS` from `tonality.py`. -/
def minorScaleIntervals : ScaleDegree → Int
  | .tonic => 0
  | .supertonic => 2
  | .mediant => 3
  | .subdominant => 5
  | .dominant => 7
  | .submediant => 8
  | .leadingTone => 10

/-- `KeySignature` from `tonality.py`. -/
structure KeySignature where
  tonic : Pitch
  isMajor : Bool
  deriving DecidableEq, Repr

/-- `TonalChord` from `tonality.py`. -/
structure TonalChord where
  scaleDegree : ScaleDegree
  quality : ChordQuality
  deriving DecidableEq, Repr

instance : Inhabited TonalChord := ⟨⟨.tonic, .major⟩⟩

/-- `TonalChord.get_chord_tones` from `tonality.py`. -/
def TonalChord.getChordTones (chord : TonalChord) (key : KeySignature) : List Pitch :=
  let scaleIntervals := if key.isMajor then majorScaleIntervals else minorScaleIntervals
  let rootInterval := scaleIntervals chord.scaleDegree
  let chordRoot := key.tonic + rootInterval
  (chordToneOffsets chord.quality).map (fun semitone => chordRoot + semitone)

/-- Modelled from the spec: `scale_degree_to_interval` is imported by
`chorale.py` (and the tests) from `tonality` but is not present under
`src/`.  Per the spec's data model, each scale degree is "mapped to a
semitone offset from the tonic, separately for major and minor scales",
with the key signature's mode flag choosing the table. -/
def scaleDegreeToInterval (degree : ScaleDegree) (key : KeySignature) : Int :=
  if key.isMajor then majorScaleIntervals degree else minorScaleIntervals degree

/-- `HarmonizedBassline` from `bassline.py`. -/
structure HarmonizedBassline where
  keySignature : KeySignature
  bassHarmonizations : List (Pitch × TonalChord)
  deriving DecidableEq, Repr

/-- `HarmonizedBassline.num_harmonizations`. -/
def HarmonizedBassline.numHarmonizations (b : HarmonizedBassline) : Nat :=
  b.bassHarmonizations.length

/-- `HarmonizedBassline.get_bass_pitch`. -/
def HarmonizedBassline.getBassPitch (b : HarmonizedBassline) (index : Nat) : Pitch :=
  (b.bassHarmonizations.getD index default).1

/-- `HarmonizedBassline.get_chord`. -/
def HarmonizedBassline.getChord (b : HarmonizedBassline) (index : Nat) : TonalChord :=
  (b.bassHarmonizations.getD index default).2

/-- Modelled from the spec: `Chorale.__init__` calls
`self.bassline.get_chord_tones(i)`, a `HarmonizedBassline` method not
present under `src/`.  Per the spec's candidate-derivation section, "for
each bassline slot, compute the chord's chord-tone pitches under the key". -/
def HarmonizedBassline.getChordTones (b : HarmonizedBassline) (index : Nat) : List Pitch :=
  (b.getChord index).getChordTones b.keySignature

/-- `Chorale` from `chorale.py`: a bassline, the mutable soprano line, and
the per-slot candidate lists. -/
structure Chorale where
  bassline : HarmonizedBassline
  sopranoLine : List (Option Pitch)
  sopranoCandidates : List (List Pitch)
  deriving DecidableEq, Repr

/-- `Chorale.__init__` on a bassline alone (no soprano line, no candidate
override): all slots unset, candidates built per slot by extending with
`all_soprano_voicings` of each chord tone in chord-tone order. -/
def Chorale.ofBassline (b : HarmonizedBassline) : Chorale where
  bassline := b
  sopranoLine := List.replicate b.numHarmonizations none
  sopranoCandidates :=
    (List.range b.numHarmonizations).map (fun i =>
      (b.getChordTones i).foldl (fun acc note => acc ++ allSopranoVoicings note) [])

/-- `Chorale.num_chords`: the length of the soprano line. -/
def Chorale.numChords (c : Chorale) : Nat := c.sopranoLine.length

/-- `Chorale.get_soprano_note` (callers always pass an in-range index;
out-of-range reads default to unset). -/
def Chorale.getSopranoNote (c : Chorale) (index : Nat) : Option Pitch :=
  c.sopranoLine.getD index none

/-- `Chorale.set_soprano_note`. -/
def Chorale.setSopranoNote (c : Chorale) (index : Nat) (pitch : Option Pitch) : Chorale :=
  { c with sopranoLine := c.sopranoLine.set index pitch }

/-- `Chorale.get_soprano_candidates`. -/
def Chorale.getSopranoCandidates (c : Chorale) (index : Nat) : List Pitch :=
  c.sopranoCandidates.getD index []

/-- `Chorale.get_bass_note`. -/
def Chorale.getBassNote (c : Chorale) (index : Nat) : Pitch :=
  c.bassline.getBassPitch index

/-- `Chorale.get_chord`. -/
def Chorale.getChord (c : Chorale) (index : Nat) : TonalChord :=
  c.bassline.getChord index

/-- `Chorale.soprano_done`: every slot assigned. -/
def Chorale.sopranoDone (c : Chorale) : Bool :=
  c.sopranoLine.all (fun note => note.isSome)

/-- `Chorale.copy`: value copy (the embedding is already by value). -/
def Chorale.copy (c : Chorale) : Chorale :=
  ⟨c.bassline, c.sopranoLine, c.sopranoCandidates⟩

/-- Leap-symmetry check of `soprano_valid_at` (both directions), active
when the two preceding soprano notes exist. -/
def leapRuleOk (sopranoNote : Pitch) (prevSoprano prevPrevSoprano : Option Pitch) : Bool :=
  match prevSoprano, prevPrevSoprano with
  | some prev, some prevPrev =>
    let finishOk :=
      let melodicInterval := distanceTo prevPrev prev
      if isLeapInterval melodicInterval then
        let stepInterval := distanceTo prev sopranoNote
        isStepwiseInterval stepInterval && !(melodicInterval * stepInterval > 0)
      else true
    let approachOk :=
      let melodicInterval := distanceTo prev sopranoNote
      if isLeapInterval melodicInterval then
        let stepInterval := distanceTo prevPrev prev
        isStepwiseInterval stepInterval && !(melodicInterval * stepInterval > 0)
      else true
    finishOk && approachOk
  | _, _ => true

/-- Melodic-interval-size check of `soprano_valid_at`: no interval beyond a
perfect fifth, no tritone leap. -/
def melodicSizeOk (sopranoNote : Pitch) (prevSoprano : Option Pitch) : Bool :=
  match prevSoprano with
  | some prev =>
    let melodicInterval := distanceTo prev sopranoNote
    !(7 < |melodicInterval|) && !(|melodicInterval| == 6)
  | none => true

/-- Parallel- and direct-fifth/octave check of `soprano_valid_at`. -/
def parallelDirectOk (sopranoNote : Pitch) (prevSoprano : Option Pitch)
    (bassNote : Pitch) (prevBass : Option Pitch) : Bool :=
  match prevSoprano, prevBass with
  | some prevS, some prevB =>
    let intervalPrev := (distanceTo prevB prevS).emod 12
    let intervalCurr := (distanceTo bassNote sopranoNote).emod 12
    if intervalPrev == intervalCurr && (intervalCurr == 0 || intervalCurr == 7) then
      false
    else if intervalCurr == 0 || intervalCurr == 7 then
      let melodicIntervalSoprano := distanceTo prevS sopranoNote
      let melodicIntervalBass := distanceTo prevB bassNote
      if isDisjunctInterval melodicIntervalBass then
        !(melodicIntervalSoprano * melodicIntervalBass > 0)
      else true
    else true
  | _, _ => true

/-- The tendency-tone list of `soprano_valid_at`: the leading tone always;
scale degree 4 when the chord is a dominant seventh on the dominant, and
when the chord is built on the leading tone. -/
def tendencyTones (chord : TonalChord) : List ScaleDegree :=
  [ScaleDegree.leadingTone]
    ++ (if chord.scaleDegree == .dominant && chord.quality == .dominantSeventh then
          [ScaleDegree.subdominant] else [])
    ++ (if chord.scaleDegree == .leadingTone then [ScaleDegree.subdominant] else [])

/-- Resolution-and-doubling check of `soprano_valid_at` for one tendency
tone.  When the previous soprano note sounds the tendency pitch class and
the current note moved to a different pitch class, the destination must be
the previous bass pitch one semitone up (leading tone) or down (scale
degree 4).  The `prevBass = none` branch is unreachable in context: a
previous soprano note exists only when `index > 0`, and then the previous
bass exists too. -/
def tendencyToneOk (sopranoNote : Pitch) (prevSoprano prevBass : Option Pitch)
    (bassNote : Pitch) (scaleDegreePitch : Pitch) (degree : ScaleDegree) : Bool :=
  let resolutionOk :=
    match prevSoprano with
    | some prevS =>
      if noteNameEquals prevS scaleDegreePitch then
        if !(noteNameEquals sopranoNote prevS) then
          match prevBass with
          | some prevB =>
            let expectedResolution : Pitch :=
              if degree == ScaleDegree.leadingTone then prevB + 1 else prevB - 1
            sopranoNote == expectedResolution
          | none => true
        else true
      else true
    | none => true
  let doublingOk :=
    !(noteNameEquals sopranoNote scaleDegreePitch && noteNameEquals bassNote scaleDegreePitch)
  resolutionOk && doublingOk

/-- Core of `Chorale.soprano_valid_at`, as a function of the local context
it reads: the slot's soprano note, the two preceding soprano notes, the
slot's candidate list, the slot's and previous bass notes, the slot's
chord, and the key signature.  The sequential early-`return False`s of the
source become a conjunction of the checks, in source order. -/
def sopranoValidCore (sopranoNote : Option Pitch) (prevSoprano prevPrevSoprano : Option Pitch)
    (candidates : List Pitch) (bassNote : Pitch) (prevBass : Option Pitch)
    (chord : TonalChord) (key : KeySignature) : Bool :=
  match sopranoNote with
  | none => true
  | some s =>
    isInSopranoRange s
      && candidates.contains s
      && leapRuleOk s prevSoprano prevPrevSoprano
      && melodicSizeOk s prevSoprano
      && parallelDirectOk s prevSoprano bassNote prevBass
      && (tendencyTones chord).all (fun degree =>
            let scaleDegreePitch := key.tonic + scaleDegreeToInterval degree key
            tendencyToneOk s prevSoprano prevBass bassNote scaleDegreePitch degree)

/-- `Chorale.soprano_valid_at`. -/
def Chorale.sopranoValidAt (c : Chorale) (index : Nat) : Bool :=
  sopranoValidCore
    (c.getSopranoNote index)
    (if 0 < index then c.getSopranoNote (index - 1) else none)
    (if 1 < index then c.getSopranoNote (index - 2) else none)
    (c.getSopranoCandidates index)
    (c.getBassNote index)
    (if 0 < index then some (c.getBassNote (index - 1)) else none)
    (c.getChord index)
    c.bassline.keySignature

/-- `Chorale.soprano_valid`: every slot individually valid. -/
def Chorale.sopranoValid (c : Chorale) : Bool :=
  (List.range c.numChords).all (fun i => c.sopranoValidAt i)

/-- The seeded pseudo-random source (`random.Random(seed)`) embedded as an
abstract deterministic stream: `ints` feeds `randint` draws, `fracs` feeds
`random()` draws, `pos` is the position in the stream.  A seed determines
the two streams, so equal seeds give equal `PRNG` values. -/
structure PRNG where
  ints : Nat → Nat
  fracs : Nat → ℚ
  pos : Nat

/-- One `random()` draw. -/
def PRNG.nextFrac (r : PRNG) : ℚ × PRNG :=
  (r.fracs r.pos, { r with pos := r.pos + 1 })

/-- One `randint(lo, hi)` draw (inclusive bounds; every `hi` passed by the
generator is at least `lo`). -/
def PRNG.nextInt (r : PRNG) (lo hi : Int) : Int × PRNG :=
  let width := hi - lo + 1
  let draw := if 0 < width then lo + (r.ints r.pos : Int) % width else lo
  (draw, { r with pos := r.pos + 1 })

/-- `motion_key` from `chorale_generator.py`: the sort key of one candidate
note at `index`, consuming randomness.  `bass_note` is never `None` in the
source, so only the previous bass is optional. -/
def motionKey (c : Chorale) (index : Nat) (rng : PRNG) (note : Pitch) :
    (Int × ℚ) × PRNG :=
  let prev := if 0 < index then c.getSopranoNote (index - 1) else none
  match prev with
  | none =>
    let (f, rng') := rng.nextFrac
    ((0, f), rng')
  | some prev =>
    let interval := |distanceTo prev note|
    let category : Int :=
      if interval == 0 then 12
      else if interval ≤ 2 then 10
      else if interval ≤ 4 then 15
      else 30
    let bassNote := c.getBassNote index
    let prevBass := if 0 < index then some (c.getBassNote (index - 1)) else none
    let category :=
      match prevBass with
      | some prevB =>
        let bassMotion := distanceTo bassNote prevB
        let sopranoMotion := distanceTo note prev
        let motionProduct := bassMotion * sopranoMotion
        if motionProduct < 0 then category - 3
        else if motionProduct == 0 then category - 1
        else category + 3
      | none => category
    let (r1, rng1) := rng.nextInt 0 category
    let (r2, rng2) := rng1.nextFrac
    ((r1, r2), rng2)

/-- The list comprehension `[(note, motion_key(note)) for note in candidates]`:
keys are drawn left to right through the random stream. -/
def keyCandidates (c : Chorale) (index : Nat) :
    List Pitch → PRNG → List (Pitch × (Int × ℚ)) × PRNG
  | [], rng => ([], rng)
  | note :: rest, rng =>
    let (k, rng') := motionKey c index rng note
    let (tail, rng'') := keyCandidates c index rest rng'
    ((note, k) :: tail, rng'')

/-- Strict lexicographic order on `(int, float)` sort keys, as Python
compares the tuples returned by `motion_key`. -/
def keyLt (a b : Int × ℚ) : Bool :=
  a.1 < b.1 || (a.1 == b.1 && a.2 < b.2)

/-- Stable insertion of a later element among already-sorted earlier ones:
it goes after every element whose key is not strictly greater, which is the
placement Python's stable `list.sort` produces. -/
def insertKeyed (x : Pitch × (Int × ℚ)) :
    List (Pitch × (Int × ℚ)) → List (Pitch × (Int × ℚ))
  | [] => [x]
  | y :: ys => if keyLt x.2 y.2 then x :: y :: ys else y :: insertKeyed x ys

/-- Stable sort by key (`candidate_notes.sort(key=lambda x: x[1])`). -/
def sortKeyed (l : List (Pitch × (Int × ℚ))) : List (Pitch × (Int × ℚ)) :=
  l.foldl (fun acc x => insertKeyed x acc) []

/-- Candidate ordering of `_try_generate_soprano_for_index`: key every
candidate, sort stably by key, keep the notes. -/
def orderCandidates (c : Chorale) (index : Nat) (rng : PRNG) : List Pitch × PRNG :=
  let (keyed, rng') := keyCandidates c index (c.getSopranoCandidates index) rng
  ((sortKeyed keyed).map Prod.fst, rng')

/-- Result of one `_try_generate_soprano_for_index` call.  `indexError`
models an uncaught `IndexError` from reading past the end of the soprano
line; `outOfFuel` is an artifact of the fuel-based embedding and is proved
unreachable for the fuel `generate_soprano` supplies. -/
inductive GenResult where
  | outOfFuel : GenResult
  | indexError : GenResult
  | finished : Bool → Chorale → PRNG → GenResult

/-- The `for candidate in candidate_notes` loop of
`_try_generate_soprano_for_index`, including the `for`/`else` clause that
clears the slot and reports failure after exhausting the candidates.
`next` is the recursive call into the following slot.  At the last slot a
locally valid candidate that fails the global check falls through to
`next` exactly as the source does. -/
def tryCandidatesGo (next : Chorale → PRNG → GenResult) (index : Nat) :
    Chorale → PRNG → List Pitch → GenResult
  | c, rng, [] => .finished false (c.setSopranoNote index none) rng
  | c, rng, candidate :: rest =>
    let c' := c.setSopranoNote index (some candidate)
    if !(c'.sopranoValidAt index) then
      tryCandidatesGo next index c' rng rest
    else if index == c'.numChords - 1
        && (c'.sopranoValidAt index && c'.sopranoValid && c'.sopranoDone) then
      .finished true c' rng
    else
      match next c' rng with
      | .outOfFuel => .outOfFuel
      | .indexError => .indexError
      | .finished true c'' rng'' => .finished true c'' rng''
      | .finished false c'' rng'' => tryCandidatesGo next index c'' rng'' rest

/-- `_try_generate_soprano_for_index` from `chorale_generator.py`.  The
slot read at the top raises `IndexError` when `index` is past the end of
the soprano line (which the source reaches through the last-slot
fall-through, and immediately at index 0 on an empty chorale). -/
def tryGenerateFor : Nat → Chorale → PRNG → Nat → GenResult
  | 0, _, _, _ => .outOfFuel
  | fuel + 1, c, rng, index =>
    if _h : index < c.sopranoLine.length then
      match c.sopranoLine[index] with
      | some _ =>
        if index == c.numChords - 1 then
          .finished (c.sopranoValidAt index && c.sopranoValid && c.sopranoDone) c rng
        else
          tryGenerateFor fuel c rng (index + 1)
      | none =>
        let (candidateNotes, rng') := orderCandidates c index rng
        tryCandidatesGo (fun c' r => tryGenerateFor fuel c' r (index + 1))
          index c rng' candidateNotes
    else
      .indexError

/-- `ChoraleGenerator.generate_soprano`: start the search at slot 0.  The
fuel bound `num_chords + 1` covers the deepest possible recursion (one
frame per slot plus the one out-of-range frame the source can reach). -/
def generateSoprano (c : Chorale) (rng : PRNG) : GenResult :=
  tryGenerateFor (c.sopranoLine.length + 1) c rng 0

/-- `ChoraleGenerator` from `chorale_generator.py`: holds a value copy of
the chorale and the seeded random source. -/
structure ChoraleGenerator where
  chorale : Chorale
  random : PRNG

/-- `ChoraleGenerator.__init__`: copy the chorale, seed the source. -/
def ChoraleGenerator.ofChorale (c : Chorale) (rng : PRNG) : ChoraleGenerator :=
  ⟨c.copy, rng⟩

/-- `generate_soprano` as a method of the generator. -/
def ChoraleGenerator.generate (g : ChoraleGenerator) : GenResult :=
  generateSoprano g.chorale g.random

/-! ### Concrete inputs used to exercise the theorems -/

/-- The all-zero random stream: one concrete seeded source. -/
def zeroRng : PRNG := ⟨fun _ => 0, fun _ => 0, 0⟩

/-- The zero stream after six draws. -/
def zeroRngSix : PRNG := { zeroRng with pos := 6 }

/-- C major (tonic C4 = 60), as the example scripts build it. -/
def cMajorKey : KeySignature := ⟨60, true⟩

/-- A one-slot chorale: bass C3 carrying the tonic major chord. -/
def oneChordChorale : Chorale :=
  Chorale.ofBassline ⟨cMajorKey, [(48, ⟨.tonic, .major⟩)]⟩

/-- The chorale the generator produces from `oneChordChorale` with the
zero stream: soprano C4. -/
def oneChordResult : Chorale := { oneChordChorale with sopranoLine := [some 60] }

/-- Two slots (C3 under I, D3 under ii) with the out-of-range pitch A5
pre-assigned at slot 0 and the last slot unset: on this input the search
walks past the end of the soprano line. -/
def invalidHintChorale : Chorale :=
  (Chorale.ofBassline
    ⟨cMajorKey, [(48, ⟨.tonic, .major⟩), (50, ⟨.supertonic, .minor⟩)]⟩).setSopranoNote
    0 (some 81)

/-- Two slots (C3 under I, D3 under ii) with C#5 = 61 — not a chord tone,
hence not a candidate — pre-assigned at the last slot: every search branch
fails and the generator reports failure. -/
def unmatchableHintChorale : Chorale :=
  (Chorale.ofBassline
    ⟨cMajorKey, [(48, ⟨.tonic, .major⟩), (50, ⟨.supertonic, .minor⟩)]⟩).setSopranoNote
    1 (some 61)

/-- Three slots (C3 under I, E3 under I, F3 under IV) with the soprano
C5 → G5 → F5: a leap up a fifth resolved by a step down, valid at slot 2. -/
def leapDemoChorale : Chorale :=
  (((Chorale.ofBassline
      ⟨cMajorKey, [(48, ⟨.tonic, .major⟩), (52, ⟨.tonic, .major⟩),
        (53, ⟨.subdominant, .major⟩)]⟩).setSopranoNote 0 (some 72)).setSopranoNote
    1 (some 79)).setSopranoNote 2 (some 77)

/-- Bass C3 → D3 against soprano G4 → A4: parallel perfect fifths. -/
def parallelDemoChorale : Chorale :=
  ((Chorale.ofBassline
    ⟨cMajorKey, [(48, ⟨.tonic, .major⟩), (50, ⟨.supertonic, .minor⟩)]⟩).setSopranoNote
    0 (some 67)).setSopranoNote 1 (some 69)

/-- Soprano B4 (the leading tone) over bass F#4 under V, then G4 over E3
under I: the leading tone moves and lands exactly one semitone above the
previous bass pitch, so slot 1 is valid. -/
def tendencyDemoChorale : Chorale :=
  ((Chorale.ofBassline
    ⟨cMajorKey, [(66, ⟨.dominant, .major⟩), (52, ⟨.tonic, .major⟩)]⟩).setSopranoNote
    0 (some 71)).setSopranoNote 1 (some 67)

/-- The spec's candidate rule stated in its own words: for each chord tone
of the slot's chord, in chord-tone order, every octave placement (octave 4
through 6 inclusive) of the tone's note name whose MIDI index lies within
`[C4, G5]` — that is, `[60, 79]` inclusive — octave-ascending within each
tone, the placements concatenated across the chord tones. -/
def specSlotCandidates (b : HarmonizedBassline) (i : Nat) : List Pitch :=
  ((b.getChord i).getChordTones b.keySignature).flatMap (fun tone =>
    ((([4, 5, 6] : List Int).map (fun octave => pitchOfClassOctave (tone.emod 12) octave)).filter
      (fun placedPitch => 60 ≤ placedPitch && placedPitch ≤ 79)))

/-! ### Helper lemmas -/

/-- Setting one soprano slot leaves reads of every other slot unchanged. -/
theorem getSopranoNote_setSopranoNote_ne (c : Chorale) {j k : Nat} (h : j ≠ k)
    (p : Option Pitch) :
    (c.setSopranoNote j p).getSopranoNote k = c.getSopranoNote k := by
  unfold Chorale.getSopranoNote Chorale.setSopranoNote
  simp only [List.getD_eq_getElem?_getD]
  rw [List.getElem?_set_ne h]

/-- Locality of the validity predicate, proved once and shared: a write at
a slot other than `i`, `i - 1`, `i - 2` cannot change `soprano_valid_at i`. -/
theorem sopranoValidAt_setSopranoNote_of_far (c : Chorale) (i j : Nat) (p : Option Pitch)
    (hij : i < j ∨ j + 2 < i) :
    (c.setSopranoNote j p).sopranoValidAt i = c.sopranoValidAt i := by
  have hne : ∀ k, j ≠ k → (c.setSopranoNote j p).getSopranoNote k = c.getSopranoNote k :=
    fun k hk => getSopranoNote_setSopranoNote_ne c hk p
  unfold Chorale.sopranoValidAt
  have e1 : (if 0 < i then (c.setSopranoNote j p).getSopranoNote (i - 1) else none)
      = (if 0 < i then c.getSopranoNote (i - 1) else none) := by
    by_cases h0 : 0 < i
    · simp only [if_pos h0]; exact hne (i - 1) (by omega)
    · simp only [if_neg h0]
  have e2 : (if 1 < i then (c.setSopranoNote j p).getSopranoNote (i - 2) else none)
      = (if 1 < i then c.getSopranoNote (i - 2) else none) := by
    by_cases h1 : 1 < i
    · simp only [if_pos h1]; exact hne (i - 2) (by omega)
    · simp only [if_neg h1]
  rw [hne i (by omega), e1, e2]
  rfl

/-! ### Claim theorems about the validity predicate -/

/-- Claim C10: `soprano_valid_at i` depends only on the bassline, key
signature, candidate lists, and the soprano slots `i - 2`, `i - 1`, `i`:
writing any pitch (or `None`) to a slot `j` with `j > i` or `j < i - 2`
leaves its value unchanged. -/
theorem soprano_valid_at_locality (c : Chorale) (i j : Nat) (p : Option Pitch)
    (_hj : j < c.numChords) (hij : i < j ∨ j + 2 < i) :
    (c.setSopranoNote j p).sopranoValidAt i = c.sopranoValidAt i :=
  sopranoValidAt_setSopranoNote_of_far c i j p hij

/-- Witness for C10 at a concrete far write: slot 2 of the three-slot demo
chorale is written while validity at slot 0 is observed. -/
theorem soprano_valid_at_locality_witness :
    (leapDemoChorale.setSopranoNote 2 (some 76)).sopranoValidAt 0
      = leapDemoChorale.sopranoValidAt 0 :=
  soprano_valid_at_locality leapDemoChorale 0 2 (some 76) (by decide) (Or.inl (by decide))

/-- Claim C7: when consecutive slots place soprano and bass at the same
interval class mod 12 and that class is a unison/octave (0) or a perfect
fifth (7), the second slot is invalid. -/
theorem soprano_valid_at_parallel_perfects (c : Chorale) (i : Nat) (s p : Pitch)
    (h1 : 0 < i)
    (hs : c.getSopranoNote i = some s)
    (hp : c.getSopranoNote (i - 1) = some p)
    (hres : (distanceTo (c.getBassNote (i - 1)) p).emod 12
      = (distanceTo (c.getBassNote i) s).emod 12)
    (hperf : (distanceTo (c.getBassNote i) s).emod 12 = 0
      ∨ (distanceTo (c.getBassNote i) s).emod 12 = 7) :
    c.sopranoValidAt i = false := by
  have hpar : parallelDirectOk s (some p) (c.getBassNote i)
      (some (c.getBassNote (i - 1))) = false := by
    rcases hperf with h7 | h7 <;> simp [parallelDirectOk, hres, h7]
  unfold Chorale.sopranoValidAt
  rw [hs, if_pos h1, hp, if_pos h1]
  simp [sopranoValidCore, hpar]

/-- Witness for C7 at the claim's own instance: bass C3 → D3 with soprano
G4 → A4 (parallel fifths) is invalid at the second slot. -/
theorem soprano_valid_at_parallel_perfects_witness :
    parallelDemoChorale.sopranoValidAt 1 = false :=
  soprano_valid_at_parallel_perfects parallelDemoChorale 1 69 67 (by decide)
    rfl rfl (by decide) (Or.inr (by decide))

/-- Claim C6: at a slot whose two predecessors are assigned, a leap
(absolute interval > 4) between them forces the following move to be a
step (absolute interval 1 or 2) with non-positive product of signed
intervals, and a leap into the slot forces the preceding move to have been
such a step, whenever the slot is valid. -/
theorem soprano_valid_at_leap_symmetry (c : Chorale) (i : Nat) (s p q : Pitch)
    (h2 : 2 ≤ i)
    (hs : c.getSopranoNote i = some s)
    (hp : c.getSopranoNote (i - 1) = some p)
    (hq : c.getSopranoNote (i - 2) = some q)
    (hv : c.sopranoValidAt i = true) :
    (isLeapInterval (distanceTo q p) = true →
      isStepwiseInterval (distanceTo p s) = true
        ∧ distanceTo q p * distanceTo p s ≤ 0)
    ∧ (isLeapInterval (distanceTo p s) = true →
        isStepwiseInterval (distanceTo q p) = true
          ∧ distanceTo p s * distanceTo q p ≤ 0) := by
  unfold Chorale.sopranoValidAt at hv
  rw [hs, if_pos (by omega : 0 < i), hp, if_pos (by omega : 1 < i), hq] at hv
  simp only [sopranoValidCore] at hv
  rw [show ∀ a b c d e f : Bool, (a && b && c && d && e && f) = (a && (b && (c && (d && (e && f))))) from by decide] at hv
  rw [Bool.and_eq_true, Bool.and_eq_true, Bool.and_eq_true, Bool.and_eq_true,
    Bool.and_eq_true] at hv
  obtain ⟨-, -, hleap, -⟩ := hv
  rw [show leapRuleOk s (some p) (some q)
      = ((if isLeapInterval (distanceTo q p) = true then
            isStepwiseInterval (distanceTo p s) && !decide (distanceTo q p * distanceTo p s > 0)
          else true)
        && (if isLeapInterval (distanceTo p s) = true then
            isStepwiseInterval (distanceTo q p) && !decide (distanceTo p s * distanceTo q p > 0)
          else true)) from rfl] at hleap
  rw [Bool.and_eq_true] at hleap
  obtain ⟨hfin, happ⟩ := hleap
  constructor
  · intro hL
    rw [if_pos hL] at hfin
    simp only [Bool.and_eq_true, Bool.not_eq_true', decide_eq_false_iff_not, not_lt] at hfin
    exact hfin
  · intro hL
    rw [if_pos hL] at happ
    simp only [Bool.and_eq_true, Bool.not_eq_true', decide_eq_false_iff_not, not_lt] at happ
    exact happ

/-- Witness for C6 at C5 → G5 → F5 (leap up a fifth resolved by a step
down), which is valid at slot 2. -/
theorem soprano_valid_at_leap_symmetry_witness :
    (isLeapInterval (distanceTo 72 79) = true →
      isStepwiseInterval (distanceTo 79 77) = true
        ∧ distanceTo 72 79 * distanceTo 79 77 ≤ 0)
    ∧ (isLeapInterval (distanceTo 79 77) = true →
        isStepwiseInterval (distanceTo 72 79) = true
          ∧ distanceTo 79 77 * distanceTo 72 79 ≤ 0) :=
  soprano_valid_at_leap_symmetry leapDemoChorale 2 77 79 72 (by decide)
    rfl rfl rfl (by decide)

/-- Shared extraction: a valid assigned slot with an assigned predecessor
passes the tendency-tone check for every applicable tendency tone. -/
theorem sopranoValidAt_tendency_all (c : Chorale) (i : Nat) (s p : Pitch)
    (h1 : 0 < i)
    (hs : c.getSopranoNote i = some s)
    (hp : c.getSopranoNote (i - 1) = some p)
    (hv : c.sopranoValidAt i = true) (d : ScaleDegree)
    (hd : d ∈ tendencyTones (c.getChord i)) :
    tendencyToneOk s (some p) (some (c.getBassNote (i - 1))) (c.getBassNote i)
      (c.bassline.keySignature.tonic + scaleDegreeToInterval d c.bassline.keySignature) d
      = true := by
  unfold Chorale.sopranoValidAt at hv
  rw [hs, if_pos h1, hp, if_pos h1] at hv
  simp only [sopranoValidCore] at hv
  rw [show ∀ a b c d e f : Bool, (a && b && c && d && e && f) = (a && (b && (c && (d && (e && f))))) from by decide] at hv
  rw [Bool.and_eq_true, Bool.and_eq_true, Bool.and_eq_true, Bool.and_eq_true,
    Bool.and_eq_true] at hv
  obtain ⟨-, -, -, -, -, htend⟩ := hv
  simpa using List.all_eq_true.mp htend d hd

/-- Claim C8: if the previous soprano note sounds an applicable tendency
tone's pitch class and the current note moved to a different pitch class,
then validity of the slot forces the current note to be the previous bass
pitch plus one semitone (leading tone) or minus one semitone (scale
degree 4, applicable under a dominant seventh on the dominant or a chord
on the leading tone). -/
theorem soprano_valid_at_tendency_resolution (c : Chorale) (i : Nat) (s p : Pitch)
    (h1 : 0 < i)
    (hs : c.getSopranoNote i = some s)
    (hp : c.getSopranoNote (i - 1) = some p) :
    (noteNameEquals p (c.bassline.keySignature.tonic
        + scaleDegreeToInterval .leadingTone c.bassline.keySignature) = true →
      noteNameEquals s p = false →
      c.sopranoValidAt i = true →
      s = c.getBassNote (i - 1) + 1)
    ∧ ((((c.getChord i).scaleDegree = ScaleDegree.dominant
          ∧ (c.getChord i).quality = ChordQuality.dominantSeventh)
        ∨ (c.getChord i).scaleDegree = ScaleDegree.leadingTone) →
      noteNameEquals p (c.bassline.keySignature.tonic
          + scaleDegreeToInterval .subdominant c.bassline.keySignature) = true →
      noteNameEquals s p = false →
      c.sopranoValidAt i = true →
      s = c.getBassNote (i - 1) - 1) := by
  constructor
  · intro hpc hmove hv
    have hf := sopranoValidAt_tendency_all c i s p h1 hs hp hv .leadingTone
      (by simp [tendencyTones])
    simp only [tendencyToneOk] at hf
    rw [Bool.and_eq_true] at hf
    obtain ⟨hres, -⟩ := hf
    rw [if_pos hpc, hmove] at hres
    simpa using hres
  · intro hchord hpc hmove hv
    have hd : ScaleDegree.subdominant ∈ tendencyTones (c.getChord i) := by
      rcases hchord with ⟨hd1, hd2⟩ | hd1
      · simp [tendencyTones, hd1, hd2]
      · simp [tendencyTones, hd1]
    have hf := sopranoValidAt_tendency_all c i s p h1 hs hp hv .subdominant hd
    simp only [tendencyToneOk] at hf
    rw [Bool.and_eq_true] at hf
    obtain ⟨hres, -⟩ := hf
    rw [if_pos hpc, hmove] at hres
    simpa using hres

/-- Witness for C8: soprano B4 over bass F#4 under V moving to G4 over E3
under I — the leading tone moved, slot 1 is valid, and the destination is
the previous bass pitch 66 plus one semitone. -/
theorem soprano_valid_at_tendency_resolution_witness :
    (noteNameEquals 71 (tendencyDemoChorale.bassline.keySignature.tonic
        + scaleDegreeToInterval .leadingTone tendencyDemoChorale.bassline.keySignature) = true →
      noteNameEquals 67 71 = false →
      tendencyDemoChorale.sopranoValidAt 1 = true →
      (67 : Pitch) = tendencyDemoChorale.getBassNote 0 + 1)
    ∧ ((((tendencyDemoChorale.getChord 1).scaleDegree = ScaleDegree.dominant
          ∧ (tendencyDemoChorale.getChord 1).quality = ChordQuality.dominantSeventh)
        ∨ (tendencyDemoChorale.getChord 1).scaleDegree = ScaleDegree.leadingTone) →
      noteNameEquals 67 (tendencyDemoChorale.bassline.keySignature.tonic
          + scaleDegreeToInterval .subdominant tendencyDemoChorale.bassline.keySignature) = true →
      noteNameEquals 67 71 = false →
      tendencyDemoChorale.sopranoValidAt 1 = true →
      (67 : Pitch) = tendencyDemoChorale.getBassNote 0 - 1) :=
  soprano_valid_at_tendency_resolution tendencyDemoChorale 1 67 71 (by decide) rfl rfl

/-! ### Claim C9: candidate derivation -/

/-- Folding "append the group of each element" is concatenation of the
groups. -/
theorem foldl_append_eq_flatMap {α β : Type} (g : α → List β) :
    ∀ (ts : List α) (acc : List β),
      ts.foldl (fun a t => a ++ g t) acc = acc ++ ts.flatMap g := by
  intro ts
  induction ts with
  | nil => intro acc; simp
  | cons t ts ih => intro acc; simp [ih, List.append_assoc]

/-- `all_soprano_voicings` is the range filter of the three octave
placements of the pitch's note name. -/
theorem allSopranoVoicings_eq_filter (p : Pitch) :
    allSopranoVoicings p
      = (((( [4, 5, 6] : List Int)).map
          (fun octave => pitchOfClassOctave (p.emod 12) octave)).filter isInSopranoRange) := by
  unfold allSopranoVoicings
  simp only [List.foldl_cons, List.foldl_nil, List.map_cons, List.map_nil, List.filter]
  by_cases h4 : isInSopranoRange (pitchOfClassOctave (p.emod 12) 4) <;>
  by_cases h5 : isInSopranoRange (pitchOfClassOctave (p.emod 12) 5) <;>
  by_cases h6 : isInSopranoRange (pitchOfClassOctave (p.emod 12) 6) <;>
  simp [h4, h5, h6]

/-- Claim C9: for a chorale built from a bassline alone, the candidate
list of each slot is exactly the spec's formula, and the only mutator of a
chorale (`set_soprano_note`) never changes the candidate lists. -/
theorem soprano_candidates_spec (b : HarmonizedBassline) (i : Nat)
    (hi : i < b.numHarmonizations) (c : Chorale) (j : Nat) (p : Option Pitch) :
    (Chorale.ofBassline b).sopranoCandidates.getD i [] = specSlotCandidates b i
      ∧ (c.setSopranoNote j p).sopranoCandidates = c.sopranoCandidates := by
  refine ⟨?_, rfl⟩
  show ((List.range b.numHarmonizations).map (fun i =>
      (b.getChordTones i).foldl (fun acc note => acc ++ allSopranoVoicings note) [])).getD i []
    = specSlotCandidates b i
  rw [List.getD_eq_getElem?_getD, List.getElem?_map, List.getElem?_range hi]
  simp only [Option.map_some', Option.getD_some]
  rw [foldl_append_eq_flatMap, List.nil_append]
  unfold specSlotCandidates HarmonizedBassline.getChordTones
  congr 1
  funext tone
  rw [allSopranoVoicings_eq_filter]
  exact List.filter_congr (fun x _ => rfl)

/-- Witness for C9 at the one-slot C-major chorale: slot 0's candidates
are the six in-range placements of C, E, G, and a concrete write does not
touch the candidate lists. -/
theorem soprano_candidates_spec_witness :
    oneChordChorale.sopranoCandidates.getD 0 []
        = specSlotCandidates oneChordChorale.bassline 0
      ∧ (oneChordChorale.setSopranoNote 0 (some 60)).sopranoCandidates
        = oneChordChorale.sopranoCandidates :=
  soprano_candidates_spec oneChordChorale.bassline 0 (by decide) oneChordChorale 0 (some 60)

/-! ### Structural lemmas about the backtracking search -/

/-- When the candidate loop reports success, the resulting chorale is
globally valid and complete (the loop only accepts after checking both,
or propagates a success of `next` that already satisfies them). -/
theorem tryCandidatesGo_true_valid_done (next : Chorale → PRNG → GenResult)
    (hnext : ∀ c rng c' rng', next c rng = .finished true c' rng' →
      c'.sopranoValid = true ∧ c'.sopranoDone = true)
    (index : Nat) (cands : List Pitch) :
    ∀ (c : Chorale) (rng : PRNG) (c' : Chorale) (rng' : PRNG),
      tryCandidatesGo next index c rng cands = .finished true c' rng' →
      c'.sopranoValid = true ∧ c'.sopranoDone = true := by
  induction cands with
  | nil =>
    intro c rng c' rng' h
    simp [tryCandidatesGo] at h
  | cons cand rest ih =>
    intro c rng c' rng' h
    simp only [tryCandidatesGo] at h
    split at h
    · exact ih _ _ _ _ h
    · split at h
      next hcond =>
        injection h with hb hc hr
        subst hc
        rw [Bool.and_eq_true, Bool.and_eq_true, Bool.and_eq_true] at hcond
        exact ⟨hcond.2.1.2, hcond.2.2⟩
      next =>
        split at h
        · exact absurd h (by simp)
        · exact absurd h (by simp)
        · next heq =>
            injection h with hb hc hr
            subst hc
            exact hnext _ _ _ _ heq
        · exact ih _ _ _ _ h

/-- When the search reports success from any slot, the resulting chorale
is globally valid and complete. -/
theorem tryGenerateFor_true_valid_done :
    ∀ (fuel : Nat) (c : Chorale) (rng : PRNG) (index : Nat) (c' : Chorale) (rng' : PRNG),
      tryGenerateFor fuel c rng index = .finished true c' rng' →
      c'.sopranoValid = true ∧ c'.sopranoDone = true := by
  intro fuel
  induction fuel with
  | zero =>
    intro c rng i c' rng' h
    simp [tryGenerateFor] at h
  | succ f ih =>
    intro c rng i c' rng' h
    simp only [tryGenerateFor] at h
    split at h
    · split at h
      · split at h
        · injection h with hb hc hr
          subst hc
          rw [Bool.and_eq_true, Bool.and_eq_true] at hb
          exact ⟨hb.1.2, hb.2⟩
        · exact ih _ _ _ _ _ h
      · exact tryCandidatesGo_true_valid_done _
          (fun c₂ rng₂ c₃ rng₃ hh => ih _ _ _ _ _ hh) i _ _ _ _ _ h
    · exact absurd h (by simp)

/-- When the candidate loop reports failure, the soprano line it leaves
behind is the incoming line with the slot under search cleared. -/
theorem tryCandidatesGo_false_rollback (next : Chorale → PRNG → GenResult)
    (hnext : ∀ c rng c' rng', next c rng = .finished false c' rng' →
      c'.sopranoLine = c.sopranoLine)
    (index : Nat) (cands : List Pitch) :
    ∀ (c : Chorale) (rng : PRNG) (c' : Chorale) (rng' : PRNG),
      tryCandidatesGo next index c rng cands = .finished false c' rng' →
      c'.sopranoLine = c.sopranoLine.set index none := by
  induction cands with
  | nil =>
    intro c rng c' rng' h
    simp only [tryCandidatesGo] at h
    injection h with hb hc hr
    subst hc
    rfl
  | cons cand rest ih =>
    intro c rng c' rng' h
    simp only [tryCandidatesGo] at h
    split at h
    · have := ih _ _ _ _ h
      rw [this]
      show (c.sopranoLine.set index (some cand)).set index none = c.sopranoLine.set index none
      rw [List.set_set]
    · split at h
      · exact absurd h (by simp)
      · split at h
        · exact absurd h (by simp)
        · exact absurd h (by simp)
        · exact absurd h (by simp)
        · next heq =>
            have h2 := ih _ _ _ _ h
            have h3 := hnext _ _ _ _ heq
            rw [h2, h3]
            show (c.sopranoLine.set index (some cand)).set index none
              = c.sopranoLine.set index none
            rw [List.set_set]

/-- Writing back the value a slot already holds does not change the list. -/
theorem list_set_getElem_self {α : Type} :
    ∀ (l : List α) (i : Nat) (a : α), l[i]? = some a → l.set i a = l := by
  intro l
  induction l with
  | nil => intro i a h; simp at h
  | cons x xs ih =>
    intro i a h
    match i with
    | 0 => simp_all
    | i + 1 =>
      simp only [List.getElem?_cons_succ] at h
      simp [ih i a h]

/-- When the search reports failure from any slot, the soprano line is
exactly what it was at entry. -/
theorem tryGenerateFor_false_rollback :
    ∀ (fuel : Nat) (c : Chorale) (rng : PRNG) (index : Nat) (c' : Chorale) (rng' : PRNG),
      tryGenerateFor fuel c rng index = .finished false c' rng' →
      c'.sopranoLine = c.sopranoLine := by
  intro fuel
  induction fuel with
  | zero =>
    intro c rng i c' rng' h
    simp [tryGenerateFor] at h
  | succ f ih =>
    intro c rng i c' rng' h
    simp only [tryGenerateFor] at h
    split at h
    next hlt =>
      split at h
      next note hnote =>
        split at h
        · injection h with hb hc hr
          subst hc
          rfl
        · exact ih _ _ _ _ _ h
      next hnone =>
        have h2 := tryCandidatesGo_false_rollback _
          (fun c₂ rng₂ c₃ rng₃ hh => ih _ _ _ _ _ hh) i _ _ _ _ _ h
        rw [h2]
        exact list_set_getElem_self _ _ _ (by rw [List.getElem?_eq_getElem hlt, hnone])
    · exact absurd h (by simp)

/-! ### Claim theorems about the generator -/

/-- Claim C1: whenever `generate_soprano` returns `True`, the generator's
chorale satisfies `soprano_done` and `soprano_valid`, for every input
bassline, every set of pre-assigned soprano hints, and every seed. -/
theorem generate_soprano_true_done_valid (c : Chorale) (rng : PRNG)
    (c' : Chorale) (rng' : PRNG)
    (h : generateSoprano c rng = .finished true c' rng') :
    c'.sopranoDone = true ∧ c'.sopranoValid = true :=
  have t := tryGenerateFor_true_valid_done _ _ _ _ _ _ h
  ⟨t.2, t.1⟩

/-- Witness for C1 at the one-slot C-major chorale with the zero stream:
the successful result is complete and valid. -/
theorem generate_soprano_true_done_valid_witness :
    oneChordResult.sopranoDone = true ∧ oneChordResult.sopranoValid = true :=
  generate_soprano_true_done_valid oneChordChorale zeroRng oneChordResult zeroRngSix rfl

/-- Claim C2: whenever `generate_soprano` returns `False`, every soprano
slot equals its value before the call — all tentative assignments were
rolled back and every pre-assigned hint is untouched. -/
theorem generate_soprano_false_rollback (c : Chorale) (rng : PRNG)
    (c' : Chorale) (rng' : PRNG)
    (h : generateSoprano c rng = .finished false c' rng') :
    c'.sopranoLine = c.sopranoLine :=
  tryGenerateFor_false_rollback _ _ _ _ _ _ h

/-- Witness for C2 at the two-slot chorale whose last slot holds a hint no
branch can satisfy: the failing run leaves the line exactly as given. -/
theorem generate_soprano_false_rollback_witness :
    unmatchableHintChorale.sopranoLine = unmatchableHintChorale.sopranoLine :=
  generate_soprano_false_rollback unmatchableHintChorale zeroRng
    unmatchableHintChorale zeroRngSix rfl

/-- Claim C5: every pitch of a successfully generated soprano line lies in
the soprano range `[C4, G5]`, i.e. MIDI `[60, 79]`. -/
theorem generate_soprano_true_in_range (c : Chorale) (rng : PRNG)
    (c' : Chorale) (rng' : PRNG)
    (h : generateSoprano c rng = .finished true c' rng') :
    ∀ (i : Nat) (s : Pitch), c'.getSopranoNote i = some s → 60 ≤ s ∧ s ≤ 79 := by
  obtain ⟨hvalid, -⟩ := tryGenerateFor_true_valid_done _ _ _ _ _ _ h
  intro i s hsi
  have hlen : i < c'.numChords := by
    by_contra hge
    push_neg at hge
    unfold Chorale.getSopranoNote at hsi
    rw [List.getD_eq_getElem?_getD, List.getElem?_eq_none hge] at hsi
    simp at hsi
  have hva : c'.sopranoValidAt i = true := by
    simpa using List.all_eq_true.mp hvalid i (List.mem_range.mpr hlen)
  unfold Chorale.sopranoValidAt at hva
  rw [hsi] at hva
  simp only [sopranoValidCore] at hva
  rw [show ∀ a b c d e f : Bool, (a && b && c && d && e && f) = (a && (b && (c && (d && (e && f))))) from by decide] at hva
  rw [Bool.and_eq_true] at hva
  have hrange := hva.1
  rw [show isInSopranoRange s = (decide (60 ≤ s) && decide (s ≤ 79)) from rfl,
    Bool.and_eq_true] at hrange
  exact ⟨of_decide_eq_true hrange.1, of_decide_eq_true hrange.2⟩

/-- Witness for C5 at the one-slot success: the produced soprano pitch 60
is in range. -/
theorem generate_soprano_true_in_range_witness :
    oneChordResult.getSopranoNote 0 = some 60 ∧ (60 ≤ (60 : Pitch) ∧ (60 : Pitch) ≤ 79) :=
  ⟨rfl, generate_soprano_true_in_range oneChordChorale zeroRng oneChordResult zeroRngSix
    rfl 0 60 rfl⟩

/-- Claim C3 is refuted by this run: on the two-slot input whose first
slot holds the out-of-range hint A5, `generate_soprano` recurses past the
last slot and reads `soprano_line[2]` of a two-element line — the
`IndexError` path — instead of reporting exhaustion as `False`. -/
theorem generate_soprano_raises_on_invalid_hint :
    generateSoprano invalidHintChorale zeroRng = .indexError := rfl

/-- Claim C4: two generators constructed from equal chorales with equal
seeds return identical results — the same success flag and, on success,
identical soprano lines — on every repetition. -/
theorem generate_soprano_deterministic (c₁ c₂ : Chorale) (rng₁ rng₂ : PRNG)
    (hc : c₁ = c₂) (hr : rng₁ = rng₂) :
    (ChoraleGenerator.ofChorale c₁ rng₁).generate
      = (ChoraleGenerator.ofChorale c₂ rng₂).generate := by
  subst hc
  subst hr
  rfl

/-- Witness for C4 at the one-slot chorale and the zero stream. -/
theorem generate_soprano_deterministic_witness :
    (ChoraleGenerator.ofChorale oneChordChorale zeroRng).generate
      = (ChoraleGenerator.ofChorale oneChordChorale zeroRng).generate :=
  generate_soprano_deterministic oneChordChorale oneChordChorale zeroRng zeroRng rfl rfl

end ChoraleGen
